import Mathlib

set_option linter.unusedVariables false

/-!
Verification of the `IOPort` template class (src/ioport.h), a generic
I/O-port controller over three memory-mapped registers.

The C++ class `IOPort<RegisterType, BitsCount>` holds three register
pointers (`DDR` for direction, `PORT` for output, `PIN` for input) and a
compile-time bit count.  We embed it shallowly:

* `w` stands for the bit width of `RegisterType` (8 for `uint8_t`);
* `W` stands for the template parameter `BitsCount`;
* a register value is a `Nat`; every C++ assignment to a register of type
  `RegisterType` truncates the assigned value, which we mirror by `% 2 ^ w`;
* the C++ `~x` (two's-complement complement of an `int`, observed through a
  `w`-bit unsigned register) is mirrored by `(2 ^ w - 1) ^^^ (x % 2 ^ w)`,
  which agrees with it on every bit position below `w`;
* `std::invalid_argument` (thrown by `checkBitNumber`) becomes
  `PortError.invalidBitIndex` and `std::runtime_error` (thrown by the two
  `write` overloads) becomes `PortError.wrongDirection`;
* a mutating member function becomes a function
  `PortState → PortState × Except PortError Unit`: the first component is
  the register contents after the call (the registers survive a C++ throw,
  so a state is returned on failure too), the second the outcome.
-/

namespace IOPort

/-- Error kinds of the port API.  `invalidBitIndex` models
`std::invalid_argument` ("Too large bit number"), `wrongDirection` models
`std::runtime_error` ("Trying to write value with wrong data direction"). -/
inductive PortError where
  | invalidBitIndex
  | wrongDirection
deriving DecidableEq, Repr

/-- Contents of the three registers an `IOPort` points at: `ddr` is the data
direction register, `port` the output register, `pin` the (read-only) input
register.  A well-formed `w`-bit register holds a value below `2 ^ w`. -/
structure PortState where
  ddr : Nat
  port : Nat
  pin : Nat
deriving DecidableEq, Repr

/-- `const RegisterType bitsMask = (1 << BitsCount) - 1;` — the shift and
subtraction happen in `int` and the result is truncated on conversion to the
`w`-bit `RegisterType`. -/
def bitsMask (w W : Nat) : Nat := ((1 <<< W) - 1) % 2 ^ w

/-- `void checkBitNumber(const std::size_t bitNumber)`: throws
`std::invalid_argument` when `bitNumber >= BitsCount`. -/
def checkBitNumber (W i : Nat) : Except PortError Unit :=
  if i ≥ W then .error .invalidBitIndex else .ok ()

/-- The register update performed by the body of
`void setBit(RegisterType* reg, const std::size_t bitNumber, const bool value)`
after its `checkBitNumber` call: `(*reg) |= (1 << bitNumber)` when `value`
is true, `(*reg) &= ~(1 << bitNumber)` otherwise, both truncated to `w` bits
on assignment. -/
def setBitReg (w : Nat) (reg i : Nat) (value : Bool) : Nat :=
  if value then (reg ||| (1 <<< i)) % 2 ^ w
  else (reg &&& ((2 ^ w - 1) ^^^ ((1 <<< i) % 2 ^ w))) % 2 ^ w

/-- `setBit` including its `checkBitNumber` guard: on success it returns the
new contents of the register it was pointed at. -/
def setBit (w W : Nat) (reg i : Nat) (value : Bool) : Except PortError Nat :=
  match checkBitNumber W i with
  | .error e => .error e
  | .ok _ => .ok (setBitReg w reg i value)

/-- `RegisterType read() const noexcept { return (*PIN) & bitsMask; }` -/
def read (w W : Nat) (s : PortState) : Nat := s.pin &&& bitsMask w W

/-- `bool read(const std::size_t bitNumber) const`: after `checkBitNumber`,
returns `((*PIN) >> bitNumber) % 2` converted to `bool` (true iff nonzero).
The member is `const`: it cannot mutate any register, so it is embedded as a
pure function of the state. -/
def readBit (W : Nat) (s : PortState) (i : Nat) : Except PortError Bool :=
  match checkBitNumber W i with
  | .error e => .error e
  | .ok _ => .ok (decide ((s.pin >>> i) % 2 ≠ 0))

/-- `void write(const RegisterType& value)`: throws `std::runtime_error` when
`((*DDR) & bitsMask) != bitsMask`; otherwise saves
`higherBits = (*PORT) & (~bitsMask)` and stores
`(value & bitsMask) | higherBits` into `*PORT`. -/
def write (w W : Nat) (s : PortState) (value : Nat) :
    PortState × Except PortError Unit :=
  if s.ddr &&& bitsMask w W ≠ bitsMask w W then (s, .error .wrongDirection)
  else
    let higherBits := s.port &&& ((2 ^ w - 1) ^^^ bitsMask w W)
    ({ s with port := ((value &&& bitsMask w W) ||| higherBits) % 2 ^ w },
     .ok ())

/-- `void write(const std::size_t bitNumber, const bool value)`: the guard in
the source is `if ((*DDR) >> bitNumber % 2 == 0)`, which by C++ precedence
(`%` binds tighter than `>>`) is `((*DDR) >> (bitNumber % 2)) == 0`; when it
does not throw, `setBit(PORT, bitNumber, value)` runs (which itself checks
the bit number before mutating). -/
def writeBit (w W : Nat) (s : PortState) (i : Nat) (value : Bool) :
    PortState × Except PortError Unit :=
  if s.ddr >>> (i % 2) = 0 then (s, .error .wrongDirection)
  else
    match setBit w W s.port i value with
    | .error e => (s, .error e)
    | .ok p => ({ s with port := p }, .ok ())

/-- `void out() noexcept { (*DDR) |= bitsMask; }` -/
def out (w W : Nat) (s : PortState) : PortState :=
  { s with ddr := (s.ddr ||| bitsMask w W) % 2 ^ w }

/-- `void out(const std::size_t bitNumber) { setBit(DDR, bitNumber, 1); }` -/
def outBit (w W : Nat) (s : PortState) (i : Nat) :
    PortState × Except PortError Unit :=
  match setBit w W s.ddr i true with
  | .error e => (s, .error e)
  | .ok d => ({ s with ddr := d }, .ok ())

/-- `void in() noexcept { (*DDR) &= ~(bitsMask); }` (`in` is a Lean keyword,
hence the name `inp`). -/
def inp (w W : Nat) (s : PortState) : PortState :=
  { s with ddr := (s.ddr &&& ((2 ^ w - 1) ^^^ bitsMask w W)) % 2 ^ w }

/-- `void in(const std::size_t bitNumber) { setBit(DDR, bitNumber, 0); }` -/
def inpBit (w W : Nat) (s : PortState) (i : Nat) :
    PortState × Except PortError Unit :=
  match setBit w W s.ddr i false with
  | .error e => (s, .error e)
  | .ok d => ({ s with ddr := d }, .ok ())

/-- `void hiZ(const std::size_t bitNumber)`: `setBit(DDR, bitNumber, 0);`
then `setBit(PORT, bitNumber, 0);`.  The two calls run in sequence, so a
throw from the second would leave the first mutation in place; the embedding
keeps that ordering. -/
def hiZ (w W : Nat) (s : PortState) (i : Nat) :
    PortState × Except PortError Unit :=
  match setBit w W s.ddr i false with
  | .error e => (s, .error e)
  | .ok d =>
    match setBit w W s.port i false with
    | .error e => ({ s with ddr := d }, .error e)
    | .ok p => ({ s with ddr := d, port := p }, .ok ())

/-- `void pullUp(const std::size_t bitNumber)`: `setBit(DDR, bitNumber, 0);`
then `setBit(PORT, bitNumber, 1);`, sequenced like `hiZ`. -/
def pullUp (w W : Nat) (s : PortState) (i : Nat) :
    PortState × Except PortError Unit :=
  match setBit w W s.ddr i false with
  | .error e => (s, .error e)
  | .ok d =>
    match setBit w W s.port i true with
    | .error e => ({ s with ddr := d }, .error e)
    | .ok p => ({ s with ddr := d, port := p }, .ok ())

/-- The constructor `IOPort(RegisterType* DDR, RegisterType* PORT, const
RegisterType* PIN)` merely stores the three pointers; the template performs
no validation of `BitsCount` whatsoever (no `static_assert`, no runtime
check), so construction succeeds for every width. -/
def mkIOPort (w W : Nat) (ddr port pin : Nat) : PortState :=
  ⟨ddr, port, pin⟩

/-! ## Helper lemmas about bits of the embedded register values -/

theorem testBit_eq_false_of_lt_pow {x n i : Nat} (h : x < 2 ^ n) (hni : n ≤ i) :
    x.testBit i = false :=
  Nat.testBit_eq_false_of_lt
    (lt_of_lt_of_le h (Nat.pow_le_pow_right (by norm_num) hni))

theorem testBit_bitsMask (w W k : Nat) :
    (bitsMask w W).testBit k = (decide (k < w) && decide (k < W)) := by
  simp [bitsMask, Nat.one_shiftLeft, Nat.testBit_mod_two_pow,
    Nat.testBit_two_pow_sub_one]

theorem mod_two_pow_eq_self_of_testBit {x n : Nat}
    (h : ∀ i, n ≤ i → x.testBit i = false) : x % 2 ^ n = x := by
  apply Nat.eq_of_testBit_eq
  intro i
  by_cases hi : i < n
  · simp [Nat.testBit_mod_two_pow, hi]
  · simp [Nat.testBit_mod_two_pow, hi, h i (le_of_not_lt hi)]

theorem testBit_notMask (w W k : Nat) :
    ((2 ^ w - 1) ^^^ bitsMask w W).testBit k =
      (decide (k < w) && ! decide (k < W)) := by
  by_cases hk : k < w <;>
    simp [Nat.testBit_xor, Nat.testBit_two_pow_sub_one, testBit_bitsMask, hk]

theorem testBit_setBitReg (w reg i : Nat) (v : Bool) (k : Nat) :
    (setBitReg w reg i v).testBit k =
      (decide (k < w) && (if k = i then v else reg.testBit k)) := by
  cases v <;> by_cases hk : k < w <;> by_cases hki : k = i <;>
    simp [setBitReg, Nat.one_shiftLeft, Nat.testBit_mod_two_pow,
      Nat.testBit_lor, Nat.testBit_land, Nat.testBit_xor,
      Nat.testBit_two_pow, Nat.testBit_two_pow_sub_one, hk, hki] <;>
    simp [Ne.symm hki]

theorem testBit_setBitReg_other {w reg i k : Nat} (v : Bool)
    (hki : k ≠ i) (hreg : reg < 2 ^ w) :
    (setBitReg w reg i v).testBit k = reg.testBit k := by
  rw [testBit_setBitReg, if_neg hki]
  by_cases hk : k < w
  · simp [hk]
  · simp [hk, testBit_eq_false_of_lt_pow hreg (le_of_not_lt hk)]

end IOPort

deriving instance DecidableEq for Except

namespace IOPort

/-! ## The claims -/

/-- Claim C5: for every width `W` in `1..w` and every register contents,
`readAll()` (the source overload `RegisterType read() const noexcept`)
returns exactly `input & ((1 << W) - 1)`.  The member is `const noexcept`,
so it is embedded as a total pure function of the state: it can neither
fail nor mutate a register. -/
theorem readAll_spec (w W : Nat) (hpos : 1 ≤ W) (hWw : W ≤ w)
    (s : PortState) : read w W s = s.pin &&& ((1 <<< W) - 1) := by
  have hlt : (1 <<< W) - 1 < 2 ^ w := by
    rw [Nat.one_shiftLeft]
    have h1 : 2 ^ W ≤ 2 ^ w := Nat.pow_le_pow_right (by norm_num) hWw
    have h2 : 0 < 2 ^ W := Nat.pow_pos (by norm_num)
    omega
  rw [read, bitsMask, Nat.mod_eq_of_lt hlt]

/-- Claim C5 witness: width 5 on an 8-bit register with `input = 200`. -/
theorem readAll_spec_witness :
    read 8 5 ⟨0, 0, 200⟩ = 200 &&& ((1 <<< 5) - 1) :=
  readAll_spec 8 5 (by decide) (by decide) ⟨0, 0, 200⟩

/-- Claim C6: for every bit index `i < W`, `readBit(i)` (the source overload
`bool read(std::size_t) const`) returns bit `i` of the input register,
`(input >> i) & 1`.  The member is `const`, so the embedding is a pure
function: no register is modified. -/
theorem readBit_spec (W : Nat) (s : PortState) (i : Nat) (hi : i < W) :
    readBit W s i = .ok (decide ((s.pin >>> i) &&& 1 = 1)) := by
  have hWi : ¬ i ≥ W := Nat.not_le.mpr hi
  simp only [readBit, checkBitNumber, hWi, if_neg, ite_false, Except.ok.injEq]
  rw [decide_eq_decide, Nat.and_one_is_mod]
  have := Nat.mod_two_eq_zero_or_one (s.pin >>> i)
  omega

/-- Claim C6 witness: bit 4 of `input = 16` (width 5) reads as 1. -/
theorem readBit_spec_witness :
    readBit 5 ⟨0, 0, 16⟩ 4 = .ok (decide (((16 : Nat) >>> 4) &&& 1 = 1)) :=
  readBit_spec 5 ⟨0, 0, 16⟩ 4 (by decide)

/-- Claim C9: the whole-port direction switches are idempotent: running
`out()` (configureOutput) twice leaves the registers identical to running it
once, and likewise for `in()` (configureInput). -/
theorem configure_idempotent (w W : Nat) (s : PortState) :
    out w W (out w W s) = out w W s ∧ inp w W (inp w W s) = inp w W s := by
  obtain ⟨d, p, q⟩ := s
  constructor
  · simp only [out, PortState.mk.injEq, and_true, true_and]
    apply Nat.eq_of_testBit_eq
    intro k
    by_cases hk : k < w <;>
      simp [Nat.testBit_mod_two_pow, Nat.testBit_lor, hk, Bool.or_assoc]
  · simp only [inp, PortState.mk.injEq, and_true, true_and]
    apply Nat.eq_of_testBit_eq
    intro k
    by_cases hk : k < w <;>
      simp [Nat.testBit_mod_two_pow, Nat.testBit_land, hk, Bool.and_assoc]

/-- Claim C3: `writeAll(value)` (the source overload
`void write(const RegisterType&)`) fails with `WrongDirection` and leaves
every register unchanged exactly when `direction & mask != mask`; otherwise
it stores `(value & mask) | (output & ~mask)` into the output register, so
bits of `output` at positions `≥ W` keep their pre-call values regardless of
the high bits of `value`. -/
theorem writeAll_spec (w W : Nat) (s : PortState) (value : Nat)
    (hv : value < 2 ^ w) (hp : s.port < 2 ^ w) :
    (write w W s value = (s, .error .wrongDirection) ↔
       s.ddr &&& bitsMask w W ≠ bitsMask w W) ∧
    (s.ddr &&& bitsMask w W = bitsMask w W →
       write w W s value =
         ({ s with port := (value &&& bitsMask w W) |||
             (s.port &&& ((2 ^ w - 1) ^^^ bitsMask w W)) }, .ok ()) ∧
       ∀ k, W ≤ k →
         ((write w W s value).1.port).testBit k = s.port.testBit k) := by
  have hmod : ((value &&& bitsMask w W) |||
      (s.port &&& ((2 ^ w - 1) ^^^ bitsMask w W))) % 2 ^ w =
      (value &&& bitsMask w W) |||
      (s.port &&& ((2 ^ w - 1) ^^^ bitsMask w W)) := by
    apply mod_two_pow_eq_self_of_testBit
    intro j hj
    have hjw : ¬ j < w := Nat.not_lt.mpr hj
    simp [Nat.testBit_lor, Nat.testBit_land, testBit_bitsMask,
      testBit_notMask, hjw]
  by_cases hg : s.ddr &&& bitsMask w W = bitsMask w W
  · have hw : write w W s value =
        ({ s with port := (value &&& bitsMask w W) |||
            (s.port &&& ((2 ^ w - 1) ^^^ bitsMask w W)) }, .ok ()) := by
      unfold write
      rw [if_neg (fun hcon => hcon hg)]
      simp only [hmod]
    refine ⟨⟨fun he => ?_, fun hne => absurd hg hne⟩, fun _ => ⟨hw, ?_⟩⟩
    · rw [hw] at he
      exact absurd (congrArg Prod.snd he) (by simp)
    · intro k hk
      rw [hw]
      have hkW : ¬ k < W := Nat.not_lt.mpr hk
      by_cases hkw : k < w
      · simp [Nat.testBit_lor, Nat.testBit_land, testBit_bitsMask,
          testBit_notMask, hkW, hkw]
      · simp [Nat.testBit_lor, Nat.testBit_land, testBit_bitsMask,
          testBit_notMask, hkw,
          testBit_eq_false_of_lt_pow hp (le_of_not_lt hkw)]
  · have hw : write w W s value = (s, .error .wrongDirection) := by
      unfold write
      rw [if_pos hg]
    exact ⟨⟨fun _ => hg, fun _ => hw⟩, fun h => absurd h hg⟩

/-- Claim C3 witness: the worked scenario from the design document — 8-bit
register, width 5, `direction = 0x1F`, `output = 0`, `writeAll(0xFF)` stores
`0x1F`. -/
theorem writeAll_spec_witness :
    write 8 5 ⟨31, 0, 16⟩ 255 =
      ({ ddr := 31, port := (255 &&& bitsMask 8 5) |||
          (0 &&& ((2 ^ 8 - 1) ^^^ bitsMask 8 5)), pin := 16 }, .ok ()) :=
  ((writeAll_spec 8 5 ⟨31, 0, 16⟩ 255 (by decide) (by decide)).2
    (by decide)).1

/-- Claim C7: for every bit index `i < W`, `pullUp(i)` succeeds, clears bit
`i` of `direction` (input mode) and sets bit `i` of `output`, and `hiZ(i)`
succeeds, clears bit `i` of `direction` and clears bit `i` of `output`; in
both cases every other bit of both registers and the whole input register
are untouched. -/
theorem pullUp_hiZ_spec (w W : Nat) (hWw : W ≤ w) (s : PortState) (i : Nat)
    (hi : i < W) (hd : s.ddr < 2 ^ w) (hp : s.port < 2 ^ w) :
    (pullUp w W s i).2 = .ok () ∧
    ((pullUp w W s i).1).ddr.testBit i = false ∧
    ((pullUp w W s i).1).port.testBit i = true ∧
    (∀ k, k ≠ i → ((pullUp w W s i).1).ddr.testBit k = s.ddr.testBit k) ∧
    (∀ k, k ≠ i → ((pullUp w W s i).1).port.testBit k = s.port.testBit k) ∧
    ((pullUp w W s i).1).pin = s.pin ∧
    (hiZ w W s i).2 = .ok () ∧
    ((hiZ w W s i).1).ddr.testBit i = false ∧
    ((hiZ w W s i).1).port.testBit i = false ∧
    (∀ k, k ≠ i → ((hiZ w W s i).1).ddr.testBit k = s.ddr.testBit k) ∧
    (∀ k, k ≠ i → ((hiZ w W s i).1).port.testBit k = s.port.testBit k) ∧
    ((hiZ w W s i).1).pin = s.pin := by
  have hWi : ¬ i ≥ W := Nat.not_le.mpr hi
  have hset : ∀ (r : Nat) (v : Bool),
      setBit w W r i v = .ok (setBitReg w r i v) := by
    intro r v
    simp [setBit, checkBitNumber, hWi]
  have hiw : i < w := lt_of_lt_of_le hi hWw
  have hPU : pullUp w W s i =
      ({ s with ddr := setBitReg w s.ddr i false,
                port := setBitReg w s.port i true }, .ok ()) := by
    simp [pullUp, hset]
  have hHZ : hiZ w W s i =
      ({ s with ddr := setBitReg w s.ddr i false,
                port := setBitReg w s.port i false }, .ok ()) := by
    simp [hiZ, hset]
  rw [hPU, hHZ]
  refine ⟨rfl, ?_, ?_, ?_, ?_, rfl, rfl, ?_, ?_, ?_, ?_, rfl⟩
  · simp [testBit_setBitReg]
  · simp [testBit_setBitReg, hiw]
  · intro k hk
    exact testBit_setBitReg_other false hk hd
  · intro k hk
    exact testBit_setBitReg_other true hk hp
  · simp [testBit_setBitReg]
  · simp [testBit_setBitReg]
  · intro k hk
    exact testBit_setBitReg_other false hk hd
  · intro k hk
    exact testBit_setBitReg_other false hk hp

/-- Claim C7 witness: the worked scenario from the design document —
`pullUp(0)` on `direction = 0x1F`, `output = 0` clears direction bit 0 and
sets output bit 0. -/
theorem pullUp_hiZ_spec_witness :
    ((pullUp 8 5 ⟨31, 0, 16⟩ 0).1).ddr.testBit 0 = false ∧
    ((pullUp 8 5 ⟨31, 0, 16⟩ 0).1).port.testBit 0 = true ∧
    ((hiZ 8 5 ⟨31, 0, 16⟩ 0).1).port.testBit 0 = false :=
  ⟨(pullUp_hiZ_spec 8 5 (by decide) ⟨31, 0, 16⟩ 0 (by decide) (by decide)
      (by decide)).2.1,
   (pullUp_hiZ_spec 8 5 (by decide) ⟨31, 0, 16⟩ 0 (by decide) (by decide)
      (by decide)).2.2.1,
   (pullUp_hiZ_spec 8 5 (by decide) ⟨31, 0, 16⟩ 0 (by decide) (by decide)
      (by decide)).2.2.2.2.2.2.2.2.1⟩

/-- The single-bit register update is idempotent: writing the same bit value
twice equals writing it once. -/
theorem setBitReg_idem (w reg i : Nat) (v : Bool) :
    setBitReg w (setBitReg w reg i v) i v = setBitReg w reg i v := by
  apply Nat.eq_of_testBit_eq
  intro k
  simp only [testBit_setBitReg]
  by_cases hki : k = i <;> by_cases hk : k < w <;> simp [hki, hk]

/-- Claim C10: for every bit index `i < W`, `pullUp(i)` run twice leaves the
registers identical to running it once, and likewise for `hiZ(i)`: both
single-bit mode switches are idempotent. -/
theorem pullUp_hiZ_idempotent (w W : Nat) (s : PortState) (i : Nat)
    (hi : i < W) :
    pullUp w W (pullUp w W s i).1 i = pullUp w W s i ∧
    hiZ w W (hiZ w W s i).1 i = hiZ w W s i := by
  have hWi : ¬ i ≥ W := Nat.not_le.mpr hi
  have hset : ∀ (r : Nat) (v : Bool),
      setBit w W r i v = .ok (setBitReg w r i v) := by
    intro r v
    simp [setBit, checkBitNumber, hWi]
  constructor <;> simp [pullUp, hiZ, hset, setBitReg_idem]

/-- Claim C10 witness: `pullUp(0)` and `hiZ(0)` at width 5 on concrete
registers. -/
theorem pullUp_hiZ_idempotent_witness :
    pullUp 8 5 (pullUp 8 5 ⟨31, 0, 16⟩ 0).1 0 = pullUp 8 5 ⟨31, 0, 16⟩ 0 ∧
    hiZ 8 5 (hiZ 8 5 ⟨31, 0, 16⟩ 0).1 0 = hiZ 8 5 ⟨31, 0, 16⟩ 0 :=
  pullUp_hiZ_idempotent 8 5 ⟨31, 0, 16⟩ 0 (by decide)

theorem testBit_or_mask_high {w W reg k : Nat} (hreg : reg < 2 ^ w)
    (hk : W ≤ k) :
    ((reg ||| bitsMask w W) % 2 ^ w).testBit k = reg.testBit k := by
  have hkW : ¬ k < W := Nat.not_lt.mpr hk
  have hmb : (bitsMask w W).testBit k = false := by
    rw [testBit_bitsMask]
    simp [hkW]
  by_cases hkw : k < w
  · rw [Nat.testBit_mod_two_pow, Nat.testBit_lor, hmb]
    simp [hkw]
  · simp [Nat.testBit_mod_two_pow, hkw,
      testBit_eq_false_of_lt_pow hreg (le_of_not_lt hkw)]

theorem testBit_and_notMask_high {w W reg k : Nat} (hreg : reg < 2 ^ w)
    (hk : W ≤ k) :
    ((reg &&& ((2 ^ w - 1) ^^^ bitsMask w W)) % 2 ^ w).testBit k =
      reg.testBit k := by
  have hkW : ¬ k < W := Nat.not_lt.mpr hk
  by_cases hkw : k < w
  · have hnm : ((2 ^ w - 1) ^^^ bitsMask w W).testBit k = true := by
      rw [testBit_notMask]
      simp [hkw, hkW]
    rw [Nat.testBit_mod_two_pow, Nat.testBit_land, hnm]
    simp [hkw]
  · simp [Nat.testBit_mod_two_pow, hkw,
      testBit_eq_false_of_lt_pow hreg (le_of_not_lt hkw)]

/-- Claim C4: every operation of the API, with every argument and from every
well-formed starting register contents, leaves every bit at a position
`k ≥ W` of the three registers exactly as it found it, whether the call
succeeds or fails.  The two read overloads are `const` members and are
embedded as pure functions, so they cannot touch any register; the eight
mutators are enumerated below. -/
theorem high_bits_invariant (w W : Nat) (s : PortState)
    (hd : s.ddr < 2 ^ w) (hp : s.port < 2 ^ w) (k : Nat) (hk : W ≤ k) :
    ((out w W s).ddr.testBit k = s.ddr.testBit k ∧
     (out w W s).port = s.port ∧ (out w W s).pin = s.pin) ∧
    ((inp w W s).ddr.testBit k = s.ddr.testBit k ∧
     (inp w W s).port = s.port ∧ (inp w W s).pin = s.pin) ∧
    (∀ value, (write w W s value).1.ddr = s.ddr ∧
      (write w W s value).1.port.testBit k = s.port.testBit k ∧
      (write w W s value).1.pin = s.pin) ∧
    (∀ i v, (writeBit w W s i v).1.ddr = s.ddr ∧
      (writeBit w W s i v).1.port.testBit k = s.port.testBit k ∧
      (writeBit w W s i v).1.pin = s.pin) ∧
    (∀ i, (outBit w W s i).1.ddr.testBit k = s.ddr.testBit k ∧
      (outBit w W s i).1.port = s.port ∧ (outBit w W s i).1.pin = s.pin) ∧
    (∀ i, (inpBit w W s i).1.ddr.testBit k = s.ddr.testBit k ∧
      (inpBit w W s i).1.port = s.port ∧ (inpBit w W s i).1.pin = s.pin) ∧
    (∀ i, (hiZ w W s i).1.ddr.testBit k = s.ddr.testBit k ∧
      (hiZ w W s i).1.port.testBit k = s.port.testBit k ∧
      (hiZ w W s i).1.pin = s.pin) ∧
    (∀ i, (pullUp w W s i).1.ddr.testBit k = s.ddr.testBit k ∧
      (pullUp w W s i).1.port.testBit k = s.port.testBit k ∧
      (pullUp w W s i).1.pin = s.pin) := by
  refine ⟨⟨testBit_or_mask_high hd hk, rfl, rfl⟩,
    ⟨testBit_and_notMask_high hd hk, rfl, rfl⟩, ?_, ?_, ?_, ?_, ?_, ?_⟩
  · intro value
    by_cases hg : s.ddr &&& bitsMask w W = bitsMask w W
    · have hwrite : write w W s value =
          ({ s with port := ((value &&& bitsMask w W) |||
              (s.port &&& ((2 ^ w - 1) ^^^ bitsMask w W))) % 2 ^ w },
           .ok ()) := by
        unfold write
        rw [if_neg (fun hcon => hcon hg)]
      rw [hwrite]
      refine ⟨rfl, ?_, rfl⟩
      have hkW : ¬ k < W := Nat.not_lt.mpr hk
      by_cases hkw : k < w
      · simp [Nat.testBit_mod_two_pow, Nat.testBit_lor, Nat.testBit_land,
          testBit_bitsMask, testBit_notMask, hkw, hkW]
      · simp [Nat.testBit_mod_two_pow, hkw,
          testBit_eq_false_of_lt_pow hp (le_of_not_lt hkw)]
    · simp [write, hg]
  · intro i v
    by_cases hg : s.ddr >>> (i % 2) = 0
    · simp [writeBit, hg]
    · by_cases hiW : i ≥ W
      · simp [writeBit, hg, setBit, checkBitNumber, hiW]
      · have hki : k ≠ i := by omega
        simp [writeBit, hg, setBit, checkBitNumber, hiW,
          testBit_setBitReg_other v hki hp]
  · intro i
    by_cases hiW : i ≥ W
    · simp [outBit, setBit, checkBitNumber, hiW]
    · have hki : k ≠ i := by omega
      simp [outBit, setBit, checkBitNumber, hiW,
        testBit_setBitReg_other true hki hd]
  · intro i
    by_cases hiW : i ≥ W
    · simp [inpBit, setBit, checkBitNumber, hiW]
    · have hki : k ≠ i := by omega
      simp [inpBit, setBit, checkBitNumber, hiW,
        testBit_setBitReg_other false hki hd]
  · intro i
    by_cases hiW : i ≥ W
    · simp [hiZ, setBit, checkBitNumber, hiW]
    · have hki : k ≠ i := by omega
      simp [hiZ, setBit, checkBitNumber, hiW,
        testBit_setBitReg_other false hki hd,
        testBit_setBitReg_other false hki hp]
  · intro i
    by_cases hiW : i ≥ W
    · simp [pullUp, setBit, checkBitNumber, hiW]
    · have hki : k ≠ i := by omega
      simp [pullUp, setBit, checkBitNumber, hiW,
        testBit_setBitReg_other false hki hd,
        testBit_setBitReg_other true hki hp]

/-- Claim C4 witness: bit 6 (≥ width 5) of the 8-bit registers survives
`out`, `writeAll(0xFF)` and `pullUp(0)` on concrete contents with bit 6 set
in both `direction` and `output`. -/
theorem high_bits_invariant_witness :
    (out 8 5 ⟨64, 65, 3⟩).ddr.testBit 6 = (64 : Nat).testBit 6 ∧
    (write 8 5 ⟨64, 65, 3⟩ 255).1.port.testBit 6 = (65 : Nat).testBit 6 ∧
    (pullUp 8 5 ⟨64, 65, 3⟩ 0).1.port.testBit 6 = (65 : Nat).testBit 6 :=
  ⟨(high_bits_invariant 8 5 ⟨64, 65, 3⟩ (by decide) (by decide) 6
      (by decide)).1.1,
   ((high_bits_invariant 8 5 ⟨64, 65, 3⟩ (by decide) (by decide) 6
      (by decide)).2.2.1 255).2.1,
   ((high_bits_invariant 8 5 ⟨64, 65, 3⟩ (by decide) (by decide) 6
      (by decide)).2.2.2.2.2.2.2 0).2.1⟩

/-- Claim C2, amended: for every bit index `i ≥ W`, `readBit(i)`,
`configureOutput(i)`, `configureInput(i)`, `setHighImpedance(i)` and
`setPullUp(i)` fail with `InvalidBitIndex`; `writeBit(i, v)` also fails and
mutates nothing, but its direction guard runs first, so it fails with
`WrongDirection` when `direction >> (i % 2) == 0` and with `InvalidBitIndex`
otherwise.  In every case none of the three registers is mutated. -/
theorem invalid_index_rejected (w W : Nat) (s : PortState) (i : Nat)
    (hi : W ≤ i) (v : Bool) :
    readBit W s i = .error .invalidBitIndex ∧
    outBit w W s i = (s, .error .invalidBitIndex) ∧
    inpBit w W s i = (s, .error .invalidBitIndex) ∧
    hiZ w W s i = (s, .error .invalidBitIndex) ∧
    pullUp w W s i = (s, .error .invalidBitIndex) ∧
    (writeBit w W s i v).1 = s ∧
    (writeBit w W s i v).2 =
      .error (if s.ddr >>> (i % 2) = 0 then .wrongDirection
              else .invalidBitIndex) := by
  have h : i ≥ W := hi
  refine ⟨?_, ?_, ?_, ?_, ?_, ?_, ?_⟩ <;>
    by_cases hg : s.ddr >>> (i % 2) = 0 <;>
    simp [readBit, outBit, inpBit, hiZ, pullUp, writeBit, setBit,
      checkBitNumber, h, hg]

/-- Claim C2 witness: index 6 at width 5 on direction 4; the five
`InvalidBitIndex` rejections and the `writeBit` outcome, instantiated. -/
theorem invalid_index_rejected_witness :
    readBit 5 ⟨4, 0, 0⟩ 6 = .error .invalidBitIndex ∧
    outBit 8 5 ⟨4, 0, 0⟩ 6 = (⟨4, 0, 0⟩, .error .invalidBitIndex) ∧
    inpBit 8 5 ⟨4, 0, 0⟩ 6 = (⟨4, 0, 0⟩, .error .invalidBitIndex) ∧
    hiZ 8 5 ⟨4, 0, 0⟩ 6 = (⟨4, 0, 0⟩, .error .invalidBitIndex) ∧
    pullUp 8 5 ⟨4, 0, 0⟩ 6 = (⟨4, 0, 0⟩, .error .invalidBitIndex) ∧
    (writeBit 8 5 ⟨4, 0, 0⟩ 6 true).1 = ⟨4, 0, 0⟩ ∧
    (writeBit 8 5 ⟨4, 0, 0⟩ 6 true).2 =
      .error (if (PortState.mk 4 0 0).ddr >>> (6 % 2) = 0
              then .wrongDirection else .invalidBitIndex) :=
  invalid_index_rejected 8 5 ⟨4, 0, 0⟩ 6 (by decide) true

/-- Claim C2 counterexample: at width 5, `writeBit(5, true)` on all-zero
registers fails with `WrongDirection`, not `InvalidBitIndex`, because the
(defective) direction guard runs before the bit-index check. -/
theorem invalid_index_counterexample :
    writeBit 8 5 ⟨0, 0, 0⟩ 5 true =
      (⟨0, 0, 0⟩, .error .wrongDirection) ∧
    PortError.wrongDirection ≠ PortError.invalidBitIndex := by decide

/-- Claim C1 (code-bug evaluation): with `direction = 0x01`, bit 2 of the
direction register is 0 (input), yet `write(2, true)` succeeds and sets bit
2 of the output register.  The guard `(*DDR) >> bitNumber % 2 == 0` parses
(C++ precedence: `%` binds tighter than `>>`) as
`((*DDR) >> (bitNumber % 2)) == 0`, which here is `1 >> 0 == 0`, i.e.
false, so the call does not throw — contradicting the member's own
documentation ("Writes value in selected bit of PORT, if DDR's same bit is
set in output mode"). -/
theorem writeBit_direction_check_defect :
    writeBit 8 5 ⟨1, 0, 16⟩ 2 true = (⟨1, 4, 16⟩, .ok ()) ∧
    (1 : Nat).testBit 2 = false := by decide

/-- Claim C8, amended: the template performs no width validation at all —
construction succeeds for every width `W`, including `W = 0` and
`W` larger than the register bit width; for every `W` with
`0 < W ≤ w` the mask is computed once as `(1 << W) - 1`, while for larger
`W` the mask value is silently truncated by the conversion to the register
type. -/
theorem construction_no_validation (w W d p q : Nat) :
    mkIOPort w W d p q = ⟨d, p, q⟩ ∧
    (0 < W → W ≤ w → bitsMask w W = (1 <<< W) - 1) := by
  refine ⟨rfl, fun hpos hWw => ?_⟩
  have hlt : (1 <<< W) - 1 < 2 ^ w := by
    rw [Nat.one_shiftLeft]
    have h1 : 2 ^ W ≤ 2 ^ w := Nat.pow_le_pow_right (by norm_num) hWw
    have h2 : 0 < 2 ^ W := Nat.pow_pos (by norm_num)
    omega
  rw [bitsMask, Nat.mod_eq_of_lt hlt]

/-- Claim C8 witness: the in-range width 5 on an 8-bit register yields the
mask `(1 << 5) - 1`. -/
theorem construction_no_validation_witness :
    bitsMask 8 5 = (1 <<< 5) - 1 :=
  (construction_no_validation 8 5 1 2 3).2 (by decide) (by decide)

/-- Claim C8 counterexample: instantiating with width 9 on an 8-bit
register — outside the claimed validated range `0 < W ≤ 8` — succeeds (no
check exists anywhere in the class), and the computed mask is the truncated
255 rather than `(1 << 9) - 1 = 511`. -/
theorem construction_width_unchecked :
    mkIOPort 8 9 0 0 0 = ⟨0, 0, 0⟩ ∧ bitsMask 8 9 = 255 ∧
    ((1 <<< 9) - 1 : Nat) = 511 := by decide

end IOPort
